import Mathlib

/-!
Verification of `analyze_diff.py` (diff-algorithm discrepancy miner).

Shallow embedding conventions:
* Optional Python strings (`Optional[str]`) become `Option String`; Python
  truthiness of a string (`if p:`) is "not `none` and not the empty string".
* Python `str.lower` is modelled by a character-wise `Char.toLower` map
  (ASCII case folding; all constants appearing in the program are ASCII).
* Python `re` word characters (`\w`) are modelled on the ASCII range as
  alphanumeric or underscore.
* String helpers are written as structural recursion over the character
  list so that every definition evaluates inside the kernel.
* The external `git diff` subprocess is a parameter `run : DiffCmd →
  CompletedProcess`; the traversal backend (pydriller) and the dataframe
  backend (pandas) are modelled from their documented contracts where the
  program relies on them, with each modelling choice recorded in the doc
  comment of the corresponding definition.
-/

set_option autoImplicit false

namespace AnalyzeDiff

/-- Python truthiness of an optional string: `None` and `""` are falsy
(`if not path: ...` in `is_test_file` / `is_source_code` / `is_license`,
`path and ...` in `is_readme`). -/
def truthy : Option String → Bool
  | none => false
  | some s => !(s == "")

/-- Python `str.lower()`: character-wise lowercasing (ASCII). -/
def toLowerStr (s : String) : String :=
  String.mk (s.data.map Char.toLower)

/-- Python `str.startswith(pre)`: `pre` is a prefix of the character
sequence. -/
def strStartsWith (s pre : String) : Bool :=
  pre.data.isPrefixOf s.data

/-- Python `str.split("/")` on the character list: splits at every slash,
keeping empty fields (`"" → [""]`, `"a//b" → ["a", "", "b"]`). -/
def splitSlashAux : List Char → List Char → List String
  | [], acc => [String.mk acc.reverse]
  | c :: rest, acc =>
    if c = '/' then String.mk acc.reverse :: splitSlashAux rest []
    else splitSlashAux rest (c :: acc)

/-- Python `p.split("/")`. -/
def splitSlash (p : String) : List String :=
  splitSlashAux p.data []

/-- Python `pathlib.Path(p).name` for slash-separated paths: the last
component after pathlib's normalization, which drops empty and single-dot
components (`Path("a/b").name = "b"`, `Path("a/b/").name = "b"`,
`Path("").name = ""`). -/
def pathName (p : String) : String :=
  ((splitSlash p).filter (fun c => !(c == "") && !(c == "."))).getLastD ""

/-- Splits a character list at the first occurrence of a dot: the
characters before the first dot and the remainder, or `none` when there is
no dot. Applied to a reversed file name to find its last dot. -/
def splitAtDotRev : List Char → Option (List Char × List Char)
  | [] => none
  | c :: rest =>
    if c = '.' then some ([], rest)
    else (splitAtDotRev rest).map (fun pr => (c :: pr.1, pr.2))

/-- Python `pathlib.Path(p).suffix`: the extension of the final component,
including the dot; empty unless the last dot of the name has at least one
character before it and after it (`Path("a.py").suffix = ".py"`,
`Path(".bashrc").suffix = ""`, `Path("foo.").suffix = ""`). -/
def pathSuffix (p : String) : String :=
  match splitAtDotRev (pathName p).data.reverse with
  | none => ""
  | some (afterRev, beforeRev) =>
    if afterRev = [] ∨ beforeRev = [] then ""
    else String.mk ('.' :: afterRev.reverse)

/-- A Python regex word character (`\w`), modelled on the ASCII range:
alphanumeric or underscore. -/
def wordChar (c : Char) : Bool := c.isAlphanum || c == '_'

/-- Regex `\b` directly after a word character: holds at end of string or
when the next character is not a word character. -/
def wordBoundaryAfter : List Char → Bool
  | [] => true
  | c :: _ => !(wordChar c)

/-- Does `(tests?|test_)\b` match starting at this position?  The next
characters must be the literal `test`; then one of the three alternatives
(`test`, `tests`, `test_`) must be followed by a word boundary. -/
def matchTestAt : List Char → Bool
  | 't' :: 'e' :: 's' :: 't' :: rest =>
    wordBoundaryAfter rest ||
      (match rest with
       | 's' :: r2 => wordBoundaryAfter r2
       | '_' :: r2 => wordBoundaryAfter r2
       | _ => false)
  | _ => false

/-- Scan for a `/` followed by a `(tests?|test_)\b` match. -/
def regexScan : List Char → Bool
  | [] => false
  | c :: rest => ((c == '/') && matchTestAt rest) || regexScan rest

/-- `re.search(r"(^|/)(tests?|test_)\b", p)` (analyze_diff.py line 58): the
pattern matches at the start of the string or right after any slash. -/
def regexTestSearch (l : List Char) : Bool :=
  matchTestAt l || regexScan l

/-- Scan for a `/` followed by exactly `conftest.py` up to the end. -/
def conftestScan : List Char → Bool
  | [] => false
  | c :: rest => ((c == '/') && (rest == "conftest.py".data)) || conftestScan rest

/-- `re.search(r"(^|/)conftest\.py$", p)` (analyze_diff.py line 59). -/
def conftestRegex (l : List Char) : Bool :=
  (l == "conftest.py".data) || conftestScan l

/-- `is_test_file` (analyze_diff.py lines 52-59): lowercases the path, then
tests segment equality with `test`, the `(^|/)(tests?|test_)\b` regex, and
the `(^|/)conftest\.py$` regex. -/
def is_test_file : Option String → Bool
  | none => false
  | some path =>
    if path = "" then false
    else
      ((splitSlash (toLowerStr path)).contains "test" ||
        regexTestSearch (toLowerStr path).data ||
        conftestRegex (toLowerStr path).data)

/-- `SOURCE_EXTS` (analyze_diff.py lines 61-68). -/
def SOURCE_EXTS : List String :=
  [".c", ".h", ".cpp", ".cc", ".cxx", ".hpp",
   ".java", ".py", ".rb", ".go", ".rs", ".php",
   ".cs", ".kt", ".m", ".mm", ".swift",
   ".js", ".jsx", ".ts", ".tsx",
   ".scala", ".pl", ".r", ".jl", ".lua",
   ".sh", ".bash", ".zsh", ".ps1"]

/-- `is_source_code` (analyze_diff.py lines 70-73). -/
def is_source_code : Option String → Bool
  | none => false
  | some path =>
    if path = "" then false
    else SOURCE_EXTS.contains (toLowerStr (pathSuffix path))

/-- `is_readme` (analyze_diff.py lines 75-76): Python returns the falsy
`path` itself when it is `None` or empty, which downstream `if` treats as
false; embedded directly as `false`. -/
def is_readme : Option String → Bool
  | none => false
  | some path =>
    if path = "" then false
    else strStartsWith (toLowerStr (pathName path)) "readme"

/-- `is_license` (analyze_diff.py lines 78-82). -/
def is_license : Option String → Bool
  | none => false
  | some path =>
    if path = "" then false
    else
      (strStartsWith (toLowerStr (pathName path)) "license" ||
        strStartsWith (toLowerStr (pathName path)) "licence")

/-- The string the classifier works on: `(new_path or old_path or "")`
(analyze_diff.py line 85) — the new path when truthy, else the old path
when truthy, else the empty string. -/
def chosenPath (old_path new_path : Option String) : String :=
  if truthy new_path then new_path.getD ""
  else if truthy old_path then old_path.getD ""
  else ""

/-- `classify_file` (analyze_diff.py lines 84-94): lowercase the chosen
path, then first match wins among readme, license, test, source, other. -/
def classify_file (old_path new_path : Option String) : String :=
  if is_readme (some (toLowerStr (chosenPath old_path new_path))) then "readme"
  else if is_license (some (toLowerStr (chosenPath old_path new_path))) then "license"
  else if is_test_file (some (toLowerStr (chosenPath old_path new_path))) then "test"
  else if is_source_code (some (toLowerStr (chosenPath old_path new_path))) then "source"
  else "other"

/-- The result of one external subprocess invocation
(`subprocess.run` wrapper `run`, analyze_diff.py lines 21-31): exit code,
captured standard output and captured standard error. -/
structure CompletedProcess where
  returncode : Int
  stdout : String
  stderr : String

/-- The arguments that determine one `git diff` invocation
(analyze_diff.py lines 98-104): working directory, the two revisions, the
path filters and the `--diff-algorithm` selector.  The fixed flags
(`--ignore-blank-lines -w --find-renames`) are part of every invocation
and are not varied by the program. -/
structure DiffCmd where
  repo_dir : String
  parent_sha : String
  commit_sha : String
  paths : List String
  algorithm : String

/-- `git_diff_single` (analyze_diff.py lines 96-106), parameterized by the
external tool `run`: the tool's standard output when it exits 0, its
standard error text otherwise. -/
def git_diff_single (run : DiffCmd → CompletedProcess)
    (repo_dir parent_sha commit_sha : String)
    (paths : List String) (algorithm : String) : String :=
  let cp := run ⟨repo_dir, parent_sha, commit_sha, paths, algorithm⟩
  if cp.returncode = 0 then cp.stdout else cp.stderr

/-- A pydriller `ModifiedFile`, restricted to the two fields the program
reads: `old_path` (absent for added files) and `new_path` (absent for
deleted files). -/
structure FileChange where
  old_path : Option String
  new_path : Option String
deriving DecidableEq, Repr

/-- A pydriller `Commit`, restricted to the fields the program reads:
`hash`, `parents` (list of parent hashes), `msg` and `modified_files`. -/
structure Commit where
  hash : String
  parents : List String
  msg : String
  modified_files : List FileChange
deriving DecidableEq, Repr

/-- One row appended to the dataset (analyze_diff.py lines 126-137).  The
field names follow the dict keys; `Discrepancy` is the verdict column. -/
structure Row where
  repo : String
  old_file_path : String
  new_file_path : String
  commit_sha : String
  parent_commit_sha : String
  commit_message : String
  file_type : String
  diff_myers : String
  diff_hist : String
  Discrepancy : String
deriving DecidableEq, Repr

/-- The fixed empty-tree identifier used as the synthetic parent of a root
commit (analyze_diff.py line 117). -/
def EMPTY_TREE : String := "4b825dc642cb6eb9a060e54bf8d69288fbee4904"

/-- `commit.parents[0] if commit.parents else "4b825…904"`
(analyze_diff.py line 117). -/
def parentSha (c : Commit) : String :=
  match c.parents with
  | [] => EMPTY_TREE
  | p :: _ => p

/-- `list({p for p in [m.old_path, m.new_path] if p})`
(analyze_diff.py line 119): the truthy paths of the change, deduplicated.
Python's set iteration order is unspecified; the embedding keeps the last
occurrence (only membership and emptiness are semantically used — the list
is passed as `git diff` path filters). -/
def pathsOf (m : FileChange) : List String :=
  (([m.old_path, m.new_path].filterMap id).filter (fun s => !(s == ""))).dedup

/-- Python `x or ""` for an optional string `x` (analyze_diff.py lines
128-129): the empty string when `x` is `None` (or already empty), else the
string itself. -/
def pyOrEmpty : Option String → String
  | none => ""
  | some s => s

/-- Python whitespace for `str.strip()` (ASCII range): space, tab,
newline, carriage return, vertical tab, form feed. -/
def isPySpace (c : Char) : Bool :=
  c == ' ' || c == '\t' || c == '\n' || c == '\r' || c == '\x0b' || c == '\x0c'

/-- Drop leading Python whitespace from a character list. -/
def dropLeadingSpace : List Char → List Char
  | [] => []
  | c :: rest => if isPySpace c then dropLeadingSpace rest else c :: rest

/-- Python `str.strip()`: drop leading and trailing whitespace. -/
def pyStrip (s : String) : String :=
  String.mk (dropLeadingSpace (dropLeadingSpace s.data.reverse).reverse)

/-- Python `str.replace("\n", " ")`: the pattern is a single character, so
this is a character-wise substitution. -/
def replaceNewlines (s : String) : String :=
  String.mk (s.data.map (fun c => if c = '\n' then ' ' else c))

/-- The record built for one modified file of one commit (analyze_diff.py
lines 118-137): skipped (`continue`) when the change has no truthy path,
otherwise both diffs are invoked with the same parent and commit revisions
and the row is assembled.  The parent revision is passed in by the caller
(`analyze_repo` computes it once per commit). -/
def rowOfChange (run : DiffCmd → CompletedProcess)
    (repoName repoPath : String) (c : Commit) (parent_sha : String)
    (m : FileChange) : Option Row :=
  if pathsOf m = [] then none
  else
    some
      { repo := repoName
        old_file_path := pyOrEmpty m.old_path
        new_file_path := pyOrEmpty m.new_path
        commit_sha := c.hash
        parent_commit_sha := parent_sha
        commit_message := replaceNewlines (pyStrip c.msg)
        file_type := classify_file m.old_path m.new_path
        diff_myers := git_diff_single run repoPath parent_sha c.hash (pathsOf m) "myers"
        diff_hist := git_diff_single run repoPath parent_sha c.hash (pathsOf m) "histogram"
        Discrepancy :=
          if git_diff_single run repoPath parent_sha c.hash (pathsOf m) "myers" =
              git_diff_single run repoPath parent_sha c.hash (pathsOf m) "histogram"
          then "No" else "Yes" }

/-- The rows one commit contributes (the inner `for m in
commit.modified_files` loop, analyze_diff.py lines 118-137), with the
parent revision computed once from the commit (line 117). -/
def commitRows (run : DiffCmd → CompletedProcess)
    (repoName repoPath : String) (c : Commit) : List Row :=
  c.modified_files.filterMap (rowOfChange run repoName repoPath c (parentSha c))

/-- Modelled from the pydriller contract for
`Repository(path, order="reverse", only_no_merge=not include_merges)
.traverse_commits()` (analyze_diff.py lines 112-113): `history` is the
repository's commit list in chronological order (oldest first);
pydriller's default traversal order is oldest-first, and `order="reverse"`
yields the reverse of that (newest first); `only_no_merge=True` excludes
commits with more than one parent. -/
def traverse_commits (history : List Commit) (include_merges : Bool) : List Commit :=
  (if include_merges then history
   else history.filter (fun c => decide (c.parents.length ≤ 1))).reverse

/-- The `max_commits` cutoff of the traversal loop (analyze_diff.py lines
114-116): before processing each commit, `if max_commits and seen >=
max_commits: break`, then `seen += 1`.  A Python int is truthy exactly
when non-zero; the claims only concern non-negative bounds, so the bound
is a `Nat`. -/
def takeLoop (max_commits : Nat) : Nat → List Commit → List Commit
  | _, [] => []
  | seen, c :: rest =>
    if max_commits ≠ 0 ∧ seen ≥ max_commits then []
    else c :: takeLoop max_commits (seen + 1) rest

/-- The commits the traversal loop actually processes. -/
def walkCommits (max_commits : Nat) (include_merges : Bool)
    (history : List Commit) : List Commit :=
  takeLoop max_commits 0 (traverse_commits history include_merges)

/-- `analyze_repo` (analyze_diff.py lines 108-138) without its I/O: the
rows of the processed commits, in traversal order. -/
def analyze_repo (run : DiffCmd → CompletedProcess)
    (repoName repoPath : String) (history : List Commit)
    (max_commits : Nat) (include_merges : Bool) : List Row :=
  (walkCommits max_commits include_merges history).flatMap
    (commitRows run repoName repoPath)

/-- The dict keys of one dataset row, in insertion order (analyze_diff.py
lines 126-137); they become the columns of the pandas DataFrame. -/
def DATASET_COLUMNS : List String :=
  ["repo", "old_file_path", "new_file_path", "commit_sha",
   "parent_commit_sha", "commit_message", "file_type",
   "diff_myers", "diff_hist", "Discrepancy"]

/-- A pandas DataFrame as the program uses it: a column-label list and the
row records.  Modelled from the pandas contract: `pd.DataFrame(rows)`
takes its columns from the dict keys of the rows, and a frame built from
an empty row list has no columns at all. -/
structure DataFrame where
  columns : List String
  records : List Row
deriving DecidableEq, Repr

/-- `pd.DataFrame(rows)` (analyze_diff.py line 138). -/
def mkDataFrame (rs : List Row) : DataFrame :=
  ⟨if rs.isEmpty then [] else DATASET_COLUMNS, rs⟩

/-- `pd.concat(all_dfs, ignore_index=True)` (analyze_diff.py line 149),
modelled from the pandas contract: raises `ValueError` on an empty list of
frames; otherwise aligns the frames on the union of their column labels
and concatenates the rows. -/
def pdConcat (dfs : List DataFrame) : Except String DataFrame :=
  if dfs.isEmpty then Except.error "ValueError: No objects to concatenate"
  else Except.ok ⟨(dfs.flatMap DataFrame.columns).dedup,
                  dfs.flatMap DataFrame.records⟩

/-- Insert a string into a ≤-sorted list, keeping it sorted. -/
def insertSorted (a : String) : List String → List String
  | [] => [a]
  | b :: rest => if a ≤ b then a :: b :: rest else b :: insertSorted a rest

/-- Sort a list of strings into ascending order (insertion sort); models
the ascending key order produced by pandas `groupby`/`pivot`. -/
def sortStrings : List String → List String
  | [] => []
  | a :: rest => insertSorted a (sortStrings rest)

/-- The number of records with the given (file category, verdict) pair. -/
def countPair (rs : List Row) (ft v : String) : Nat :=
  (rs.filter (fun r => r.file_type == ft && r.Discrepancy == v)).length

/-- The derived summary table: row keys (the pivot index), column keys
(the pivot columns) and the cell matrix, row-major. -/
structure StatsTable where
  rowKeys : List String
  colKeys : List String
  cells : List (List Nat)
deriving DecidableEq, Repr

/-- The `stats` pipeline of `build_and_save` (analyze_diff.py lines
152-155): `groupby(["file_type","Discrepancy"]).size().reset_index(…)
.pivot(…).fillna(0).astype(int)`.  Modelled from the pandas contract:
grouping by a label the frame does not have raises `KeyError` (which is
what happens to the column-less frame built from zero records); otherwise
the pivot's index is the sorted list of observed `file_type` values, its
columns are the sorted list of observed `Discrepancy` values, each cell is
the group size for that pair, and `fillna(0)` turns the absent
combinations of observed keys into 0 — together: every cell is the count
of records with that (category, verdict) pair. -/
def build_stats (df : DataFrame) : Except String StatsTable :=
  if "file_type" ∈ df.columns ∧ "Discrepancy" ∈ df.columns then
    Except.ok
      ⟨sortStrings (df.records.map Row.file_type).dedup,
       sortStrings (df.records.map Row.Discrepancy).dedup,
       (sortStrings (df.records.map Row.file_type).dedup).map (fun ft =>
         (sortStrings (df.records.map Row.Discrepancy).dedup).map (fun v =>
           countPair df.records ft v))⟩
  else Except.error "KeyError: file_type"

/-- The aggregation core of `build_and_save` (analyze_diff.py lines
144-156): one record list per repository, concatenated into the full
dataset and summarized.  The CSV write of the full dataset (line 150)
happens before the summary and does not fail; the summary is where an
empty dataset matters. -/
def build_and_save_stats (perRepo : List (List Row)) : Except String StatsTable :=
  match pdConcat (perRepo.map mkDataFrame) with
  | Except.error e => Except.error e
  | Except.ok full => build_stats full


/-- C1: the spec's test heuristic requires a basename beginning with
`test_` (a segment beginning with `test` followed by a non-letter, e.g.
`test_foo`) to classify as test, and the code's own regex alternative
`test_` shows the same intent — but `\b` cannot match between `_` (a word
character) and a following letter, so `is_test_file` rejects
`test_foo.py` and `classify_file` files it under `source`.  The remaining
boundary cases of the claim (segment exactly `test`/`tests` is a test;
`test` as a mere substring of a segment is not) do hold of the code. -/
theorem c1_test_heuristic_code_bug :
    is_test_file (some "test_foo.py") = false ∧
    classify_file none (some "test_foo.py") = "source" ∧
    is_test_file (some "src/test/Foo.py") = true ∧
    is_test_file (some "src/tests/Foo.py") = true ∧
    is_test_file (some "src/testutils/Foo.py") = false ∧
    is_test_file (some "src/contest/Foo.py") = false := by
  exact ⟨by decide, by decide, by decide, by decide, by decide, by decide⟩

/-- Feeding the chosen path back through the Python expression
`(new_path or old_path or "")` is the identity. -/
theorem chosenPath_none_some (s : String) : chosenPath none (some s) = s := by
  by_cases h : s = "" <;> simp [chosenPath, truthy, h]

/-- A string that starts with `pre` starts with `pre`'s first character. -/
theorem startsWith_head (s pre : String) (c : Char)
    (hc : pre.data.head? = some c) (h : strStartsWith s pre = true) :
    s.data.head? = some c := by
  unfold strStartsWith at h
  cases hpre : pre.data with
  | nil => rw [hpre] at hc; exact absurd hc (by simp)
  | cons a as =>
    rw [hpre] at hc h
    simp at hc
    cases hs : s.data with
    | nil => rw [hs] at h; simp [List.isPrefixOf] at h
    | cons b bs =>
      rw [hs] at h
      simp [List.isPrefixOf] at h
      simp [← hc, h.1]

/-- C2: `classify_file` is total with values in the five categories; it
classifies the new path when truthy, else the old path; a basename
beginning with `readme` wins over everything (in particular over a `test`
segment elsewhere in the path), `license`/`licence` basenames win over the
test heuristic, and the remaining precedence is test, then source, then
other. -/
theorem c2_classify_total_precedence (old_path new_path : Option String) :
    (classify_file old_path new_path = "source" ∨
     classify_file old_path new_path = "test" ∨
     classify_file old_path new_path = "readme" ∨
     classify_file old_path new_path = "license" ∨
     classify_file old_path new_path = "other") ∧
    classify_file old_path new_path =
      classify_file none (some (chosenPath old_path new_path)) ∧
    (strStartsWith (toLowerStr (pathName (toLowerStr (chosenPath old_path new_path)))) "readme" = true →
      classify_file old_path new_path = "readme") ∧
    ((strStartsWith (toLowerStr (pathName (toLowerStr (chosenPath old_path new_path)))) "license" = true ∨
      strStartsWith (toLowerStr (pathName (toLowerStr (chosenPath old_path new_path)))) "licence" = true) →
      classify_file old_path new_path = "license") ∧
    (is_readme (some (toLowerStr (chosenPath old_path new_path))) = false →
     is_license (some (toLowerStr (chosenPath old_path new_path))) = false →
     is_test_file (some (toLowerStr (chosenPath old_path new_path))) = true →
      classify_file old_path new_path = "test") ∧
    (is_readme (some (toLowerStr (chosenPath old_path new_path))) = false →
     is_license (some (toLowerStr (chosenPath old_path new_path))) = false →
     is_test_file (some (toLowerStr (chosenPath old_path new_path))) = false →
     is_source_code (some (toLowerStr (chosenPath old_path new_path))) = true →
      classify_file old_path new_path = "source") ∧
    (is_readme (some (toLowerStr (chosenPath old_path new_path))) = false →
     is_license (some (toLowerStr (chosenPath old_path new_path))) = false →
     is_test_file (some (toLowerStr (chosenPath old_path new_path))) = false →
     is_source_code (some (toLowerStr (chosenPath old_path new_path))) = false →
      classify_file old_path new_path = "other") := by
  refine ⟨?_, ?_, ?_, ?_, ?_, ?_, ?_⟩
  · unfold classify_file
    split
    · exact Or.inr (Or.inr (Or.inl rfl))
    split
    · exact Or.inr (Or.inr (Or.inr (Or.inl rfl)))
    split
    · exact Or.inr (Or.inl rfl)
    split
    · exact Or.inl rfl
    · exact Or.inr (Or.inr (Or.inr (Or.inr rfl)))
  · unfold classify_file
    rw [chosenPath_none_some]
  · intro h
    have hne : ¬ (chosenPath old_path new_path = "") := by
      intro he
      rw [he] at h
      exact absurd h (by decide)
    have htl : ¬ (toLowerStr (chosenPath old_path new_path) = "") := by
      intro he
      rw [he] at h
      exact absurd h (by decide)
    have hr : is_readme (some (toLowerStr (chosenPath old_path new_path))) = true := by
      simp only [is_readme]
      rw [if_neg htl]
      exact h
    unfold classify_file
    rw [hr]
    simp
  · intro h
    have htl : ¬ (toLowerStr (chosenPath old_path new_path) = "") := by
      intro he
      rw [he] at h
      rcases h with h | h <;> exact absurd h (by decide)
    have hlhead : (toLowerStr (pathName (toLowerStr (chosenPath old_path new_path)))).data.head? = some 'l' := by
      rcases h with h | h
      · exact startsWith_head _ "license" 'l' rfl h
      · exact startsWith_head _ "licence" 'l' rfl h
    have hrfalse : is_readme (some (toLowerStr (chosenPath old_path new_path))) = false := by
      simp only [is_readme]
      rw [if_neg htl]
      cases hb : strStartsWith (toLowerStr (pathName (toLowerStr (chosenPath old_path new_path)))) "readme" with
      | false => rfl
      | true =>
        have h2 := startsWith_head _ "readme" 'r' rfl hb
        rw [hlhead] at h2
        exact absurd h2 (by decide)
    have hlic : is_license (some (toLowerStr (chosenPath old_path new_path))) = true := by
      simp only [is_license]
      rw [if_neg htl]
      rcases h with h | h <;> simp [h]
    unfold classify_file
    rw [hrfalse, hlic]
    simp
  · intro h1 h2 h3
    unfold classify_file
    rw [h1, h2, h3]
    simp
  · intro h1 h2 h3 h4
    unfold classify_file
    rw [h1, h2, h3, h4]
    simp
  · intro h1 h2 h3 h4
    unfold classify_file
    rw [h1, h2, h3, h4]
    simp

/-- Witness for C2: the readme, license and source clauses applied at
concrete inputs — `README.md` wins although a `test` segment occurs in
the old path, `LICENCE` classifies as license, and an ordinary `.py` file
classifies as source. -/
theorem c2_witness :
    classify_file (some "src/test/old.py") (some "docs/README.md") = "readme" ∧
    classify_file none (some "LICENCE") = "license" ∧
    classify_file none (some "src/lib/util.py") = "source" := by
  refine ⟨?_, ?_, ?_⟩
  · exact (c2_classify_total_precedence (some "src/test/old.py") (some "docs/README.md")).2.2.1 (by decide)
  · exact (c2_classify_total_precedence none (some "LICENCE")).2.2.2.1 (Or.inr (by decide))
  · exact (c2_classify_total_precedence none (some "src/lib/util.py")).2.2.2.2.2.1
      (by decide) (by decide) (by decide) (by decide)

/-- C4: the claim (and spec §7) says an all-repositories run that produces
zero records must still yield the dataset CSV and a zero-row summary
table without failing.  In the code, the DataFrame built from zero records
has no columns, so `full.groupby(["file_type","Discrepancy"])` in
`build_and_save` raises `KeyError`; with an empty repository list,
`pd.concat([])` raises `ValueError` even earlier.  The summary is never
produced. -/
theorem c4_empty_dataset_code_bug :
    build_and_save_stats [[]] = Except.error "KeyError: file_type" ∧
    build_and_save_stats [] = Except.error "ValueError: No objects to concatenate" ∧
    mkDataFrame [] = ⟨[], []⟩ := by
  exact ⟨rfl, rfl, rfl⟩

/-- C3: `git_diff_single` returns the tool's standard output when the
exit code is 0 and the tool's diagnostic (standard error) text when it is
non-zero, never raising; and the verdict of a produced record is the
plain equality comparison of the two returned texts, so a substituted
error text participates in the comparison exactly like diff text. -/
theorem c3_diff_error_recovery (run : DiffCmd → CompletedProcess)
    (repoPath parent_sha commit_sha : String) (paths : List String)
    (algorithm : String) (repoName : String) (c : Commit) (m : FileChange) :
    ((run ⟨repoPath, parent_sha, commit_sha, paths, algorithm⟩).returncode = 0 →
      git_diff_single run repoPath parent_sha commit_sha paths algorithm =
        (run ⟨repoPath, parent_sha, commit_sha, paths, algorithm⟩).stdout) ∧
    ((run ⟨repoPath, parent_sha, commit_sha, paths, algorithm⟩).returncode ≠ 0 →
      git_diff_single run repoPath parent_sha commit_sha paths algorithm =
        (run ⟨repoPath, parent_sha, commit_sha, paths, algorithm⟩).stderr) ∧
    (∀ r : Row, rowOfChange run repoName repoPath c parent_sha m = some r →
      r.Discrepancy =
        if git_diff_single run repoPath parent_sha c.hash (pathsOf m) "myers" =
            git_diff_single run repoPath parent_sha c.hash (pathsOf m) "histogram"
        then "No" else "Yes") := by
  refine ⟨?_, ?_, ?_⟩
  · intro h
    simp [git_diff_single, h]
  · intro h
    simp [git_diff_single, h]
  · intro r hr
    unfold rowOfChange at hr
    by_cases hp : pathsOf m = []
    · rw [if_pos hp] at hr
      exact absurd hr (by simp)
    · rw [if_neg hp] at hr
      rw [← Option.some.inj hr]

/-- A concrete external diff tool for the C3 witness: exits 0 with output
`difftext` under the myers algorithm, exits 1 with a diagnostic under the
histogram algorithm. -/
def runW : DiffCmd → CompletedProcess := fun cmd =>
  if cmd.algorithm = "myers" then ⟨0, "difftext", ""⟩
  else ⟨1, "", "fatal: bad revision"⟩

/-- A concrete modified file (rename-free edit of `a.py`). -/
def mW : FileChange := ⟨some "a.py", some "a.py"⟩

/-- A concrete commit touching `mW`. -/
def cW : Commit := ⟨"c3hash", ["c3parent"], "msg", [mW]⟩

/-- The record `rowOfChange` produces from `runW`, `cW` and `mW`. -/
def rowW3 : Row :=
  ⟨"n", "a.py", "a.py", "c3hash", "c3parent", "msg", "source",
   "difftext", "fatal: bad revision", "Yes"⟩

/-- Witness for C3: at `runW`, a zero exit yields the stdout text, a
non-zero exit yields the stderr text, and the resulting record compares
the substituted diagnostic against the diff text, yielding a (spurious)
`Yes` verdict. -/
theorem c3_witness :
    git_diff_single runW "d" "c3parent" "c3hash" ["a.py"] "myers" = "difftext" ∧
    git_diff_single runW "d" "c3parent" "c3hash" ["a.py"] "histogram" = "fatal: bad revision" ∧
    rowW3.Discrepancy = "Yes" := by
  have h := c3_diff_error_recovery runW "d" "c3parent" "c3hash" ["a.py"] "myers" "n" cW mW
  have h2 := c3_diff_error_recovery runW "d" "c3parent" "c3hash" ["a.py"] "histogram" "n" cW mW
  refine ⟨h.1 (by decide), h2.2.1 (by decide), ?_⟩
  have h3 := h.2.2 rowW3 (by decide)
  rw [h3]
  decide

/-- C6: a commit with no parents gets the fixed empty-tree identifier as
its parent reference — never an empty or missing string — and a commit
with parents gets its first parent; the per-commit parent reference is
recorded in the `parent_commit_sha` field of every record of the commit
and is the revision passed to both diff invocations. -/
theorem c6_parent_reference (run : DiffCmd → CompletedProcess)
    (repoName repoPath : String) (c : Commit) :
    (c.parents = [] →
      parentSha c = "4b825dc642cb6eb9a060e54bf8d69288fbee4904" ∧ parentSha c ≠ "") ∧
    (∀ p ps, c.parents = p :: ps → parentSha c = p) ∧
    (∀ r ∈ commitRows run repoName repoPath c,
      r.parent_commit_sha = parentSha c ∧
      ∃ m ∈ c.modified_files,
        r.diff_myers = git_diff_single run repoPath (parentSha c) c.hash (pathsOf m) "myers" ∧
        r.diff_hist = git_diff_single run repoPath (parentSha c) c.hash (pathsOf m) "histogram") := by
  refine ⟨?_, ?_, ?_⟩
  · intro h
    unfold parentSha
    rw [h]
    exact ⟨rfl, by decide⟩
  · intro p ps h
    unfold parentSha
    rw [h]
  · intro r hr
    rcases List.mem_filterMap.mp hr with ⟨m, hm, hrm⟩
    unfold rowOfChange at hrm
    by_cases hp : pathsOf m = []
    · rw [if_pos hp] at hrm
      exact absurd hrm (by simp)
    · rw [if_neg hp] at hrm
      rw [← Option.some.inj hrm]
      exact ⟨rfl, m, hm, rfl, rfl⟩

/-- A concrete root commit (no parents) adding `a.py`. -/
def rootW : Commit := ⟨"r00t", [], "first", [⟨none, some "a.py"⟩]⟩

/-- The record `rowOfChange` produces from `runW` and `rootW`. -/
def rowW6 : Row :=
  ⟨"repo", "", "a.py", "r00t", "4b825dc642cb6eb9a060e54bf8d69288fbee4904",
   "first", "source", "difftext", "fatal: bad revision", "Yes"⟩

/-- Witness for C6: the root commit's parent reference is the empty-tree
identifier and its record carries it. -/
theorem c6_witness :
    parentSha rootW = "4b825dc642cb6eb9a060e54bf8d69288fbee4904" ∧
    rowW6.parent_commit_sha = parentSha rootW := by
  have h := c6_parent_reference runW "repo" "dir" rootW
  exact ⟨(h.1 rfl).1, (h.2.2 rowW6 (by decide)).1⟩

/-- With a zero bound the loop never breaks (`if max_commits and …` is
falsy). -/
theorem takeLoop_zero (l : List Commit) (seen : Nat) : takeLoop 0 seen l = l := by
  induction l generalizing seen with
  | nil => rfl
  | cons c rest ih => simp [takeLoop, ih]

/-- With a non-zero bound the loop takes the first `k - seen` commits. -/
theorem takeLoop_eq_take (k : Nat) (hk : k ≠ 0) (l : List Commit) (seen : Nat) :
    takeLoop k seen l = l.take (k - seen) := by
  induction l generalizing seen with
  | nil => simp [takeLoop]
  | cons c rest ih =>
    by_cases h : seen ≥ k
    · have hz : k - seen = 0 := Nat.sub_eq_zero_of_le h
      simp [takeLoop, hk, h, hz]
    · have hsub : k - seen = (k - (seen + 1)) + 1 := by omega
      simp [takeLoop, h, hsub, ih]

/-- C7: with a positive bound `k` the walker processes at most `k`
commits, exactly `k` when at least `k` eligible commits exist, and the
bound `0` means unbounded (the whole eligible traversal, not zero
commits). -/
theorem c7_max_commits_bound (history : List Commit) (include_merges : Bool)
    (k : Nat) (hk : 0 < k) :
    (walkCommits k include_merges history).length ≤ k ∧
    (k ≤ (traverse_commits history include_merges).length →
      (walkCommits k include_merges history).length = k) ∧
    walkCommits 0 include_merges history = traverse_commits history include_merges := by
  have hne : k ≠ 0 := by omega
  have heq : walkCommits k include_merges history =
      (traverse_commits history include_merges).take k := by
    unfold walkCommits
    rw [takeLoop_eq_take k hne _ 0, Nat.sub_zero]
  refine ⟨?_, ?_, ?_⟩
  · rw [heq, List.length_take]
    exact Nat.min_le_left _ _
  · intro hlen
    rw [heq, List.length_take]
    exact Nat.min_eq_left hlen
  · unfold walkCommits
    exact takeLoop_zero _ 0

/-- A two-commit chronological history: `cA` is the oldest commit. -/
def cA : Commit := ⟨"a1", [], "first", []⟩

/-- The newer of the two commits, child of `cA`. -/
def cB : Commit := ⟨"b2", ["a1"], "second", []⟩

/-- Witness for C7 on the two-commit history with bound 1 and bound 0. -/
theorem c7_witness :
    (walkCommits 1 false [cA, cB]).length = 1 ∧
    walkCommits 0 false [cA, cB] = traverse_commits [cA, cB] false := by
  have h := c7_max_commits_bound [cA, cB] false 1 (by decide)
  exact ⟨h.2.1 (by decide), h.2.2⟩

/-- C9: a file change with neither an old nor a new path produces no
record (`continue`): it contributes nothing, raises nothing, and the
changes before and after it in the same commit are still processed. -/
theorem c9_skip_malformed (run : DiffCmd → CompletedProcess)
    (repoName repoPath parent_sha : String) (c : Commit)
    (xs ys : List FileChange)
    (h : c.modified_files = xs ++ (⟨none, none⟩ : FileChange) :: ys) :
    rowOfChange run repoName repoPath c parent_sha ⟨none, none⟩ = none ∧
    commitRows run repoName repoPath c =
      xs.filterMap (rowOfChange run repoName repoPath c (parentSha c)) ++
      ys.filterMap (rowOfChange run repoName repoPath c (parentSha c)) := by
  have hnone : ∀ ps : String, rowOfChange run repoName repoPath c ps ⟨none, none⟩ = none := by
    intro ps
    rfl
  refine ⟨hnone parent_sha, ?_⟩
  unfold commitRows
  rw [h, List.filterMap_append]
  simp [List.filterMap_cons, hnone]

/-- A concrete commit containing a malformed change after a good one. -/
def cBadW : Commit := ⟨"h9", ["p9"], "m9", [mW, ⟨none, none⟩]⟩

/-- Witness for C9 on `cBadW`. -/
theorem c9_witness :
    rowOfChange runW "n" "d" cBadW "p9" ⟨none, none⟩ = none ∧
    commitRows runW "n" "d" cBadW =
      [mW].filterMap (rowOfChange runW "n" "d" cBadW (parentSha cBadW)) ++
      ([] : List FileChange).filterMap (rowOfChange runW "n" "d" cBadW (parentSha cBadW)) := by
  exact c9_skip_malformed runW "n" "d" "p9" cBadW [mW] [] rfl

/-- C10: every produced record stores plain strings in its path fields —
an absent old or new path becomes the empty string, never a missing
value — while the category is classified from the original optional
paths. -/
theorem c10_record_paths (run : DiffCmd → CompletedProcess)
    (repoName repoPath : String) (c : Commit) :
    ∀ r ∈ commitRows run repoName repoPath c, ∃ m ∈ c.modified_files,
      r.old_file_path = pyOrEmpty m.old_path ∧
      r.new_file_path = pyOrEmpty m.new_path ∧
      (m.old_path = none → r.old_file_path = "") ∧
      (m.new_path = none → r.new_file_path = "") ∧
      r.file_type = classify_file m.old_path m.new_path := by
  intro r hr
  rcases List.mem_filterMap.mp hr with ⟨m, hm, hrm⟩
  unfold rowOfChange at hrm
  by_cases hp : pathsOf m = []
  · rw [if_pos hp] at hrm
    exact absurd hrm (by simp)
  · rw [if_neg hp] at hrm
    rw [← Option.some.inj hrm]
    refine ⟨m, hm, rfl, rfl, ?_, ?_, rfl⟩
    · intro h0
      rw [h0]
      rfl
    · intro h0
      rw [h0]
      rfl

/-- Witness for C10: the record of the added file in `rootW` has an empty
`old_file_path` and is classified from the original optional paths. -/
theorem c10_witness :
    rowW6.old_file_path = "" ∧ rowW6.file_type = "source" := by
  have h := c10_record_paths runW "repo" "dir" rootW rowW6 (by decide)
  rcases h with ⟨m, hm, h1, h2, h3, h4, h5⟩
  have hm2 : m = (⟨none, some "a.py"⟩ : FileChange) := by
    simp [rootW] at hm
    exact hm
  subst hm2
  refine ⟨h3 rfl, ?_⟩
  rw [h5]
  decide

/-- C5 counterexample: on the two-commit chronological history
`[cA, cB]` (so `cA` is the oldest eligible commit), walking with
`maxCommits = 1` processes `[cB]` — the newest commit — and not the
oldest commit `cA` as the claim requires. -/
theorem c5_counterexample :
    walkCommits 1 false [cA, cB] = [cB] ∧ cB ≠ cA := by
  exact ⟨rfl, by decide⟩

/-- C5 amended: the walker produces each repository's eligible commits
newest-first (pydriller's `order="reverse"` is the reverse of its
oldest-first default), so a `maxCommits = k` cutoff processes the `k`
most recent eligible commits; `maxCommits = 0` still means the whole
eligible history. -/
theorem c5_newest_first (history : List Commit) (include_merges : Bool) (k : Nat) :
    traverse_commits history include_merges =
      (if include_merges then history
       else history.filter (fun c => decide (c.parents.length ≤ 1))).reverse ∧
    (k ≠ 0 → walkCommits k include_merges history =
      (traverse_commits history include_merges).take k) ∧
    walkCommits 0 include_merges history = traverse_commits history include_merges := by
  refine ⟨rfl, ?_, ?_⟩
  · intro hk
    unfold walkCommits
    rw [takeLoop_eq_take k hk _ 0, Nat.sub_zero]
  · unfold walkCommits
    exact takeLoop_zero _ 0

/-- Witness for C5 on the two-commit history with bound 1. -/
theorem c5_witness :
    walkCommits 1 false [cA, cB] = (traverse_commits [cA, cB] false).take 1 := by
  exact (c5_newest_first [cA, cB] false 1).2.1 (by decide)

/-- Inserting into a sorted list permutes consing. -/
theorem insertSorted_perm (a : String) (l : List String) :
    List.Perm (insertSorted a l) (a :: l) := by
  induction l with
  | nil => exact List.Perm.refl _
  | cons b rest ih =>
    unfold insertSorted
    by_cases h : a ≤ b
    · rw [if_pos h]
    · rw [if_neg h]
      exact (ih.cons b).trans (List.Perm.swap a b rest)

/-- The insertion sort permutes its input. -/
theorem sortStrings_perm (l : List String) : List.Perm (sortStrings l) l := by
  induction l with
  | nil => exact List.Perm.refl _
  | cons a rest ih =>
    exact (insertSorted_perm a (sortStrings rest)).trans (ih.cons a)

/-- `getD` after `map`, inside the length. -/
theorem getD_map_of_lt {α β : Type} (f : α → β) (l : List α) (i : Nat)
    (d : α) (d2 : β) (h : i < l.length) :
    (l.map f).getD i d2 = f (l.getD i d) := by
  induction l generalizing i with
  | nil => simp at h
  | cons a rest ih =>
    cases i with
    | zero => rfl
    | succ n =>
      simp only [List.map_cons, List.getD_cons_succ]
      exact ih n (Nat.lt_of_succ_lt_succ h)

/-- `build_stats` on a frame that has the two groupby columns. -/
theorem build_stats_ok (rs : List Row) :
    build_stats ⟨DATASET_COLUMNS, rs⟩ =
      Except.ok ⟨sortStrings (rs.map Row.file_type).dedup,
                 sortStrings (rs.map Row.Discrepancy).dedup,
                 (sortStrings (rs.map Row.file_type).dedup).map (fun ft =>
                   (sortStrings (rs.map Row.Discrepancy).dedup).map (fun v =>
                     countPair rs ft v))⟩ := by
  unfold build_stats
  split
  · rfl
  · next hcon =>
    refine absurd ⟨?_, ?_⟩ hcon
    · show "file_type" ∈ DATASET_COLUMNS
      decide
    · show "Discrepancy" ∈ DATASET_COLUMNS
      decide

/-- On one non-empty record list the aggregation reaches `build_stats`
with the full column list. -/
theorem build_and_save_single (rs : List Row) (h : rs ≠ []) :
    build_and_save_stats [rs] = build_stats ⟨DATASET_COLUMNS, rs⟩ := by
  cases rs with
  | nil => exact absurd rfl h
  | cons a t =>
    show build_stats ⟨DATASET_COLUMNS, a :: (t ++ [])⟩ =
      build_stats ⟨DATASET_COLUMNS, a :: t⟩
    rw [List.append_nil]

/-- A single dataset record: category `source`, verdict `No`. -/
def oneRowW : Row := ⟨"r", "a.py", "a.py", "c", "p", "m", "source", "", "", "No"⟩

/-- C8 counterexample: on a dataset with one `("source", "No")` record the
summary table has exactly one row key and one column key — the category
row `test` (among others) and the verdict column `Yes` are omitted, while
the claim requires a row for every category and a column for every
verdict. -/
theorem c8_counterexample :
    build_and_save_stats [[oneRowW]] =
      Except.ok (⟨["source"], ["No"], [[1]]⟩ : StatsTable) ∧
    ¬ ("test" ∈ (["source"] : List String)) ∧
    ¬ ("Yes" ∈ (["No"] : List String)) := by
  exact ⟨rfl, by decide, by decide⟩

/-- C8 amended: for a non-empty dataset the summary table has one row per
category observed in the records and one column per verdict observed in
the records (each exactly once), and every cell — including the observed
combinations with no records — is the count of records with that
(category, verdict) pair. -/
theorem c8_observed_categories (records : List Row) (h : records ≠ []) :
    ∃ T : StatsTable,
      build_and_save_stats [records] = Except.ok T ∧
      (∀ ft, ft ∈ T.rowKeys ↔ ft ∈ records.map Row.file_type) ∧
      (∀ v, v ∈ T.colKeys ↔ v ∈ records.map Row.Discrepancy) ∧
      T.rowKeys.Nodup ∧ T.colKeys.Nodup ∧
      T.cells.length = T.rowKeys.length ∧
      (∀ i j, i < T.rowKeys.length → j < T.colKeys.length →
        (T.cells.getD i []).getD j 0 =
          countPair records (T.rowKeys.getD i "") (T.colKeys.getD j "")) := by
  refine ⟨_, (build_and_save_single records h).trans (build_stats_ok records),
    ?_, ?_, ?_, ?_, ?_, ?_⟩
  · intro ft
    rw [(sortStrings_perm _).mem_iff, List.mem_dedup]
  · intro v
    rw [(sortStrings_perm _).mem_iff, List.mem_dedup]
  · exact ((sortStrings_perm _).nodup_iff).mpr (List.nodup_dedup _)
  · exact ((sortStrings_perm _).nodup_iff).mpr (List.nodup_dedup _)
  · exact List.length_map _ _
  · intro i j hi hj
    rw [getD_map_of_lt _ _ i "" [] hi, getD_map_of_lt _ _ j "" 0 hj]

/-- Witness for C8 at the one-record dataset. -/
theorem c8_witness :
    build_and_save_stats [[oneRowW]] =
      Except.ok (⟨["source"], ["No"], [[1]]⟩ : StatsTable) ∧
    ([[1]] : List (List Nat)).length = (["source"] : List String).length := by
  obtain ⟨T, h1, h2, h3, h4, h5, h6, h7⟩ := c8_observed_categories [oneRowW] (by decide)
  have h0 : build_and_save_stats [[oneRowW]] =
      Except.ok (⟨["source"], ["No"], [[1]]⟩ : StatsTable) := rfl
  have hT : T = (⟨["source"], ["No"], [[1]]⟩ : StatsTable) := by
    rw [h0] at h1
    exact (Except.ok.inj h1).symm
  refine ⟨h0, ?_⟩
  rw [hT] at h6
  exact h6

end AnalyzeDiff
